import Mathlib

/-!
Shallow embedding of the grading evaluation and workflow engine of the
`zettacamp-abi` repository: the criteria validator (`test.validator` file,
here `src/unnamed/part_000`), the task/result payload helpers
(`src/modules/task/task.helper.js`), and the GraphQL type declarations they
must agree with.  JavaScript values that may be absent (`undefined`/`null`)
or of the wrong runtime type are modelled with `Option`: `none` stands for
"absent or not of the checked type", which is exactly how the source's
`typeof`-guards treat them.  Numbers are modelled as rationals: every number
reachable through the JSON/GraphQL transport layer is a finite decimal.
-/

namespace ZettaGrading

/-- JS `String.prototype.toUpperCase` restricted to ASCII, which is all the
source compares against (enum literals are ASCII). -/
def asciiUpperChar (c : Char) : Char :=
  if 'a' ≤ c ∧ c ≤ 'z' then Char.ofNat (c.toNat - 32) else c

/-- ASCII uppercasing of a string, modelling `s.toUpperCase()`.  Defined on
the character list so that it evaluates by kernel reduction. -/
def asciiUpper (s : String) : String :=
  ⟨s.data.map asciiUpperChar⟩

/-- JS `String.prototype.trim`: strip leading and trailing whitespace. -/
def strTrim (s : String) : String :=
  ⟨((s.data.dropWhile Char.isWhitespace).reverse.dropWhile
      Char.isWhitespace).reverse⟩

/-- The `ApolloError`s thrown by the validators, one constructor per `throw`
site, carrying the dynamic parts (field paths, offending values) of the
original message.  Distinct constructors correspond to distinct messages in
the source. -/
inductive VError where
  | badName
  | badDescription
  | badTestType
  | badResultVisibility
  | badWeight
  | badCorrectionType
  | badIsRetake
  | badTestStatus
  | badNotationsArray
  | badNotationText (index : Nat)
  | badNotationMaxPoints (index : Nat)
  | missingConnectedTest
  | invalidConnectedTest (id : String)
  | testTypeMismatch (testType evaluationType : String)
  | noNotationsForCriteria
  | noBranch
  | emptyGroups (path : String)
  | emptyConditions (path : String)
  | badCriteriaType (path : String)
  | badComparisonOperator (path : String)
  | badMark (path : String)
  | missingNotationText (path : String)
  | unknownNotationText (text : String) (path : String)
  deriving DecidableEq, Repr

/-- A raw condition object as submitted to the validator
(`validateSingleNotationCondition` in `src/unnamed/part_000`).  Each field is
`none` when absent or not of the type the validator checks with `typeof`. -/
structure Condition where
  criteria_type : Option String
  comparison_operator : Option String
  mark : Option ℚ
  notation_text : Option String
  deriving DecidableEq, Repr

/-- A raw criteria group; `conditions` is `none` when not an array. -/
structure CriteriaGroup where
  conditions : Option (List Condition)
  deriving DecidableEq, Repr

/-- A raw criteria branch; `test_criteria_groups` is `none` when absent or
not an array. -/
structure CriteriaBranch where
  test_criteria_groups : Option (List CriteriaGroup)
  deriving DecidableEq, Repr

/-- A raw `test_passing_criteria` object. -/
structure TestPassingCriteria where
  pass_criteria : Option CriteriaBranch
  fail_criteria : Option CriteriaBranch
  deriving DecidableEq, Repr

/-- A raw notation entry of a test input. -/
structure NotationInput where
  notation_text : Option String
  max_points : Option ℚ
  deriving DecidableEq, Repr

instance {ε α : Type} [DecidableEq ε] [DecidableEq α] :
    DecidableEq (Except ε α) := fun x y =>
  match x, y with
  | .ok a, .ok b =>
    if h : a = b then .isTrue (by rw [h]) else .isFalse (by simp [h])
  | .error a, .error b =>
    if h : a = b then .isTrue (by rw [h]) else .isFalse (by simp [h])
  | .ok _, .error _ => .isFalse (by simp)
  | .error _, .ok _ => .isFalse (by simp)

/-- `validCriteriaType` array of the source. -/
def validCriteriaType : List String := ["MARK", "AVERAGE"]

/-- `validComparisonOperator` array of the source. -/
def validComparisonOperator : List String := ["GTE", "LTE", "GT", "LT", "E"]

/-- `validateSingleNotationCondition` of `src/unnamed/part_000` (lines
246-294): checks `criteria_type`, `comparison_operator` and `mark`, then, for
`MARK`-type conditions, that `notation_text` is a non-empty string contained
(exactly, case-sensitively) in the available notation-text set. -/
def validateSingleNotationCondition (condition : Condition)
    (availableNotationTexts : List String) (path : String) :
    Except VError Unit :=
  match condition.criteria_type with
  | none => .error (.badCriteriaType path)
  | some ct =>
    if validCriteriaType.contains (asciiUpper ct) = false then
      .error (.badCriteriaType path)
    else
      match condition.comparison_operator with
      | none => .error (.badComparisonOperator path)
      | some op =>
        if validComparisonOperator.contains (asciiUpper op) = false then
          .error (.badComparisonOperator path)
        else
          match condition.mark with
          | none => .error (.badMark path)
          | some m =>
            if m < 0 then .error (.badMark path)
            else
              if asciiUpper ct = "MARK" then
                match condition.notation_text with
                | none => .error (.missingNotationText path)
                | some nt =>
                  if strTrim nt = "" then .error (.missingNotationText path)
                  else if availableNotationTexts.contains nt = false then
                    .error (.unknownNotationText nt path)
                  else .ok ()
              else .ok ()

/-- Inner `forEach` of `validateTestCriteriaGroups`: walk a group's
conditions with their index, stopping at the first failure. -/
def validateConditionsAux (availableNotationTexts : List String)
    (groupPath : String) : Nat → List Condition → Except VError Unit
  | _, [] => .ok ()
  | i, c :: rest =>
    match validateSingleNotationCondition c availableNotationTexts
        (groupPath ++ ".conditions[" ++ toString i ++ "]") with
    | .error e => .error e
    | .ok () => validateConditionsAux availableNotationTexts groupPath
        (i + 1) rest

/-- Outer `forEach` of `validateTestCriteriaGroups`: walk the groups with
their index, checking each group has a non-empty `conditions` array. -/
def validateGroupsAux (availableNotationTexts : List String)
    (path : String) : Nat → List CriteriaGroup → Except VError Unit
  | _, [] => .ok ()
  | i, g :: rest =>
    match g.conditions with
    | none =>
      .error (.emptyConditions (path ++ "[" ++ toString i ++ "]" ++
        ".conditions"))
    | some cs =>
      if cs.isEmpty then
        .error (.emptyConditions (path ++ "[" ++ toString i ++ "]" ++
          ".conditions"))
      else
        match validateConditionsAux availableNotationTexts
            (path ++ "[" ++ toString i ++ "]") 0 cs with
        | .error e => .error e
        | .ok () => validateGroupsAux availableNotationTexts path (i + 1) rest

/-- `validateTestCriteriaGroups` of `src/unnamed/part_000` (lines 210-236). -/
def validateTestCriteriaGroups (criteriaGroups : Option (List CriteriaGroup))
    (availableNotationTexts : List String) (path : String) :
    Except VError Unit :=
  match criteriaGroups with
  | none => .error (.emptyGroups path)
  | some gs =>
    if gs.isEmpty then .error (.emptyGroups path)
    else validateGroupsAux availableNotationTexts path 0 gs

/-- `new Set(notations.map(n => n.notation_text))`: the texts of the given
notation entries; an entry whose text is absent contributes nothing a string
condition could match. -/
def notationTexts (ns : List NotationInput) : List String :=
  ns.filterMap (fun n => n.notation_text)

/-- `validateTestPassingCriteriaInput` of `src/unnamed/part_000` (lines
173-200): requires at least one branch, then validates each present branch
against the notation-text set. -/
def validateTestPassingCriteriaInput
    (testPassingCriteria : TestPassingCriteria) (ns : List NotationInput) :
    Except VError Unit :=
  if testPassingCriteria.pass_criteria = none ∧
      testPassingCriteria.fail_criteria = none then
    .error .noBranch
  else
    match (match testPassingCriteria.pass_criteria with
           | none => Except.ok ()
           | some pc =>
             validateTestCriteriaGroups pc.test_criteria_groups
               (notationTexts ns)
               "test_passing_criteria.pass_criteria.test_criteria_groups") with
    | .error e => .error e
    | .ok () =>
      match testPassingCriteria.fail_criteria with
      | none => .ok ()
      | some fc =>
        validateTestCriteriaGroups fc.test_criteria_groups (notationTexts ns)
          "test_passing_criteria.fail_criteria.test_criteria_groups"

/-- A raw test input object (`ValidateTestInput` argument in
`src/unnamed/part_000`); `none` models an absent field. -/
structure TestInput where
  name : Option String
  description : Option String
  test_type : Option String
  result_visibility : Option String
  weight : Option ℚ
  correction_type : Option String
  is_retake : Option Bool
  connected_test : Option String
  test_status : Option String
  notations : Option (List NotationInput)
  test_passing_criteria : Option TestPassingCriteria
  deriving DecidableEq, Repr

/-- `validTestType` array of the source. -/
def validTestType : List String :=
  ["FREE_CONTINUOUS_CONTROL", "MEMMOIRE_ORAL_NON_JURY", "MEMOIRE_ORAL",
   "MEMOIRE_WRITTEN", "MENTOR_EVALUATION", "ORAL", "WRITTEN"]

/-- `validResultVisibility` array of the source. -/
def validResultVisibility : List String :=
  ["NEVER", "AFTER_CORRECTION", "AFTER_JURY_DECISION_FOR_FINAL_TRANSCRIPT"]

/-- `validCorrectionType` array of the source. -/
def validCorrectionType : List String :=
  ["ADMTC", "CERTIFIER", "CROSS_CORRECTION", "PREPARATION_CENTER"]

/-- `validStatus` array of the source. -/
def validStatus : List String := ["ACTIVE", "INACTIVE"]

/-- Rule predicate `typeof val === 'string' && val.trim() !== ''`. -/
def isNonEmptyStr : Option String → Bool
  | some s => strTrim s != ""
  | none => false

/-- Rule predicate `typeof val === 'string' && valid.includes(val.toUpperCase())`. -/
def isEnumStr (valid : List String) : Option String → Bool
  | some s => valid.contains (asciiUpper s)
  | none => false

/-- Rule predicate for `weight`: a number between 0 and 1. -/
def isWeight : Option ℚ → Bool
  | some w => decide (0 ≤ w) && decide (w ≤ 1)
  | none => false

/-- The `validationRules` loop of `ValidateTestInput` (lines 52-110): each
rule is checked when the field is required on a create, or whenever the field
is present; the first failing rule throws. -/
def validateRuleFields (testInput : TestInput) (isUpdate : Bool) :
    Except VError Unit :=
  if (!isUpdate || testInput.name.isSome) && !(isNonEmptyStr testInput.name)
    then .error .badName
  else if (!isUpdate || testInput.description.isSome) &&
      !(isNonEmptyStr testInput.description) then .error .badDescription
  else if (!isUpdate || testInput.test_type.isSome) &&
      !(isEnumStr validTestType testInput.test_type) then .error .badTestType
  else if (!isUpdate || testInput.result_visibility.isSome) &&
      !(isEnumStr validResultVisibility testInput.result_visibility) then
    .error .badResultVisibility
  else if (!isUpdate || testInput.weight.isSome) &&
      !(isWeight testInput.weight) then .error .badWeight
  else if (!isUpdate || testInput.correction_type.isSome) &&
      !(isEnumStr validCorrectionType testInput.correction_type) then
    .error .badCorrectionType
  else if (!isUpdate || testInput.is_retake.isSome) &&
      !testInput.is_retake.isSome then .error .badIsRetake
  else if testInput.test_status.isSome &&
      !(isEnumStr validStatus testInput.test_status) then .error .badTestStatus
  else .ok ()

/-- Per-entry checks of the notations block (lines 119-127). -/
def validateNotationEntriesAux : Nat → List NotationInput → Except VError Unit
  | _, [] => .ok ()
  | i, n :: rest =>
    match n.notation_text with
    | none => .error (.badNotationText i)
    | some t =>
      if strTrim t = "" then .error (.badNotationText i)
      else
        match n.max_points with
        | none => .error (.badNotationMaxPoints i)
        | some mp =>
          if mp < 0 then .error (.badNotationMaxPoints i)
          else validateNotationEntriesAux (i + 1) rest

/-- The notations block of `ValidateTestInput` (lines 114-128): run on a
create, or on an update that supplies `notations`; the array must be
non-empty and each entry well-formed. -/
def validateNotationsSection (testInput : TestInput) (isUpdate : Bool) :
    Except VError Unit :=
  if !isUpdate || testInput.notations.isSome then
    match testInput.notations with
    | none => .error .badNotationsArray
    | some l =>
      if l.isEmpty then .error .badNotationsArray
      else validateNotationEntriesAux 0 l
  else .ok ()

/-- `mongoose.Types.ObjectId.isValid` for the string inputs reachable here:
a 24-character hexadecimal string. -/
def isValidObjectId (s : String) : Bool :=
  (s.data.length == 24) &&
    s.data.all (fun c =>
      c.isDigit || ('a' ≤ c && c ≤ 'f') || ('A' ≤ c && c ≤ 'F'))

/-- The retake block of `ValidateTestInput` (lines 130-137). -/
def validateRetakeSection (testInput : TestInput) : Except VError Unit :=
  if testInput.is_retake = some true then
    match testInput.connected_test with
    | none => .error .missingConnectedTest
    | some ct =>
      if ct = "" then .error .missingConnectedTest
      else if isValidObjectId ct = false then
        .error (.invalidConnectedTest ct)
      else .ok ()
  else .ok ()

/-- `competencyTestTypes` array of the source. -/
def competencyTestTypes : List String :=
  ["ORAL", "WRITTEN", "MEMOIRE_WRITTEN", "FREE_CONTINUOUS_CONTROL",
   "MENTOR_EVALUATION"]

/-- `scoreTestTypes` array of the source. -/
def scoreTestTypes : List String :=
  ["FREE_CONTINUOUS_CONTROL", "MEMMOIRE_ORAL_NON_JURY", "MEMOIRE_ORAL",
   "MEMOIRE_WRITTEN", "MENTOR_EVALUATION", "ORAL", "WRITTEN"]

/-- The block/evaluation-type compatibility block of `ValidateTestInput`
(lines 139-150). -/
def validateTestTypeEvalSection (testInput : TestInput)
    (evaluationType : String) : Except VError Unit :=
  match testInput.test_type with
  | none => .ok ()
  | some tt =>
    if tt = "" then .ok ()
    else
      if ((evaluationType == "COMPETENCY") &&
            !(competencyTestTypes.contains (asciiUpper tt))) ||
          ((evaluationType == "SCORE") &&
            !(scoreTestTypes.contains (asciiUpper tt))) then
        .error (.testTypeMismatch (asciiUpper tt) evaluationType)
      else .ok ()

/-- The passing-criteria block of `ValidateTestInput` (lines 152-163): when a
`test_passing_criteria` is supplied, validate it against the newly-submitted
notations when present, otherwise against the test's existing notations;
reject when neither source yields a non-empty array. -/
def validateCriteriaSection (testInput : TestInput)
    (existingNotations : Option (List NotationInput)) : Except VError Unit :=
  match testInput.test_passing_criteria with
  | none => .ok ()
  | some tpc =>
    match (match testInput.notations with
           | some l => some l
           | none => existingNotations) with
    | none => .error .noNotationsForCriteria
    | some [] => .error .noNotationsForCriteria
    | some l => validateTestPassingCriteriaInput tpc l

/-- `ValidateTestInput` of `src/unnamed/part_000` (lines 46-164): the blocks
in source order, first failure wins. -/
def ValidateTestInput (testInput : TestInput) (evaluationType : String)
    (existingNotations : Option (List NotationInput)) (isUpdate : Bool) :
    Except VError Unit :=
  match validateRuleFields testInput isUpdate with
  | .error e => .error e
  | .ok () =>
    match validateNotationsSection testInput isUpdate with
    | .error e => .error e
    | .ok () =>
      match validateRetakeSection testInput with
      | .error e => .error e
      | .ok () =>
        match validateTestTypeEvalSection testInput evaluationType with
        | .error e => .error e
        | .ok () => validateCriteriaSection testInput existingNotations

/-- `Number(x.toFixed(2))`: round to 2 decimal places.  ECMAScript `toFixed`
picks the closest 2-decimal value and, on a tie, the larger one, which is
`⌊x * 100 + 1/2⌋ / 100`. -/
def round2 (q : ℚ) : ℚ := (⌊q * 100 + 1 / 2⌋ : ℚ) / 100

/-- An entered mark (GraphQL `MarkInput`: both fields required). -/
structure Mark where
  notation_text : String
  mark : ℚ
  deriving DecidableEq, Repr

/-- GraphQL `EnterMarksInput`. -/
structure EnterMarksInput where
  test : String
  student : String
  marks : List Mark
  deriving DecidableEq, Repr

/-- The `totalMarks` accumulation loop of `GetStudentTestResultPayload`
(`src/modules/task/task.helper.js` lines 166-170). -/
def totalMarks (marks : List Mark) : ℚ :=
  marks.foldl (fun acc m => acc + m.mark) 0

/-- The document payload built by `GetStudentTestResultPayload`. -/
structure StudentTestResultPayload where
  student : String
  test : String
  marks : List Mark
  average_mark : ℚ
  mark_entry_date : ℕ
  student_test_result_status : String
  created_by : String
  updated_by : String
  deriving DecidableEq, Repr

/-- `GetStudentTestResultPayload` of `src/modules/task/task.helper.js`
(lines 159-184).  `now` stands for the `Date.now()` captured at the call.
The validator it invokes first (`ValidateEnterMarksInput`, in the
`task.validator` file) either throws or leaves the input unchanged, so the
payload below is the one produced whenever a payload is produced. -/
def GetStudentTestResultPayload (enterMarksInput : EnterMarksInput)
    (userId : String) (now : ℕ) : StudentTestResultPayload :=
  let averageMark : ℚ :=
    if enterMarksInput.marks.length ≠ 0 then
      totalMarks enterMarksInput.marks / enterMarksInput.marks.length
    else 0
  { student := enterMarksInput.student
    test := enterMarksInput.test
    marks := enterMarksInput.marks
    average_mark := round2 averageMark
    mark_entry_date := now
    student_test_result_status := "PENDING"
    created_by := userId
    updated_by := userId }

/-- A JS object field value, for payloads whose exact key strings matter. -/
inductive FieldValue where
  | str (s : String)
  | num (n : ℤ)
  deriving DecidableEq, Repr

/-- `GetStudentTestResultValidationPayload` of
`src/modules/task/task.helper.js` (lines 191-198), as the literal key/value
object it returns; `now` is the `Date.now()` at the call. -/
def GetStudentTestResultValidationPayload (userId : String) (now : ℤ) :
    List (String × FieldValue) :=
  [("student_test_result_status", .str "VALIDATED"),
   ("marks_validated_date", .num now),
   ("updated_by", .str userId)]

/-- The field names of the `StudentTestResult` GraphQL type declared in
`src/modules/studentTestResult/student_test_result.typedef.js`. -/
def studentTestResultTypedefFields : List String :=
  ["_id", "student", "test", "marks", "average_mark", "mark_entry_date",
   "mark_validated_date", "student_test_result_status", "created_by",
   "created_at", "updated_by", "updated_at", "deleted_by", "deleted_at"]

/-- GraphQL `CreateTaskInput` (all fields required except `due_date`). -/
structure CreateTaskInput where
  test : String
  user : String
  title : String
  description : String
  task_type : String
  due_date : Option String
  deriving DecidableEq, Repr

/-- The document payload returned by `GetCreateTaskPayload`. -/
structure CreateTaskPayload where
  test : String
  user : String
  title : String
  description : String
  task_type : String
  task_status : String
  due_date : Option String
  created_by : String
  updated_by : String
  deriving DecidableEq, Repr

/-- `GetCreateTaskPayload` of `src/modules/task/task.helper.js` (lines
23-48): a new task is always created `PENDING`, with no completion fields. -/
def GetCreateTaskPayload (taskInput : CreateTaskInput) (userId : String) :
    CreateTaskPayload :=
  { test := taskInput.test
    user := taskInput.user
    title := taskInput.title
    description := taskInput.description
    task_type := asciiUpper taskInput.task_type
    task_status := "PENDING"
    due_date := taskInput.due_date
    created_by := userId
    updated_by := userId }

/-- The raw input of `GetUpdateTaskPayload`; every field is optional because
the helper checks each for `undefined`/`null` itself (`none` models both). -/
structure UpdateTaskInput where
  user : Option String
  title : Option String
  description : Option String
  task_type : Option String
  task_status : Option String
  due_date : Option String
  deriving DecidableEq, Repr

/-- The partial `$set` payload returned by `GetUpdateTaskPayload`: a field is
`some` exactly when the payload object carries that key. -/
structure UpdateTaskPayload where
  user : Option String
  title : Option String
  description : Option String
  task_type : Option String
  task_status : Option String
  due_date : Option String
  updated_by : String
  deriving DecidableEq, Repr

/-- `GetUpdateTaskPayload` of `src/modules/task/task.helper.js` (lines
57-83): copies exactly the supplied fields (uppercasing the enum fields) and
always stamps `updated_by`. -/
def GetUpdateTaskPayload (taskInput : UpdateTaskInput) (userId : String) :
    UpdateTaskPayload :=
  { user := taskInput.user
    title := taskInput.title
    description := taskInput.description
    task_type := taskInput.task_type.map asciiUpper
    task_status := taskInput.task_status.map asciiUpper
    due_date := taskInput.due_date
    updated_by := userId }

/-- The payload returned by `GetTaskCompletionPayload`
(`src/modules/task/task.helper.js` lines 140-149). -/
structure CompletionPayload where
  task_status : String
  completed_by : String
  completed_at : ℕ
  updated_by : String
  deriving DecidableEq, Repr

/-- `GetTaskCompletionPayload` of `src/modules/task/task.helper.js` (lines
140-149); `now` is the `Date.now()` at the call. -/
def GetTaskCompletionPayload (userId : String) (now : ℕ) :
    CompletionPayload :=
  { task_status := "COMPLETED"
    completed_by := userId
    completed_at := now
    updated_by := userId }

/-- A task document's mutable state (the fields the payloads above touch). -/
structure TaskState where
  test : String
  user : String
  title : String
  description : String
  task_type : String
  task_status : String
  due_date : Option String
  completed_by : Option String
  completed_at : Option ℕ
  created_by : String
  updated_by : String
  deriving DecidableEq, Repr

/-- Creating a document from a create payload: fields the payload does not
carry (the completion pair) are absent. -/
def applyCreatePayload (p : CreateTaskPayload) : TaskState :=
  { test := p.test
    user := p.user
    title := p.title
    description := p.description
    task_type := p.task_type
    task_status := p.task_status
    due_date := p.due_date
    completed_by := none
    completed_at := none
    created_by := p.created_by
    updated_by := p.updated_by }

/-- MongoDB `$set` semantics of an update payload: only the keys present in
the payload change; the completion pair is never in an update payload. -/
def applyUpdatePayload (t : TaskState) (p : UpdateTaskPayload) : TaskState :=
  { t with
    user := p.user.getD t.user
    title := p.title.getD t.title
    description := p.description.getD t.description
    task_type := p.task_type.getD t.task_type
    task_status := p.task_status.getD t.task_status
    due_date := match p.due_date with
      | some d => some d
      | none => t.due_date
    updated_by := p.updated_by }

/-- `$set` semantics of a completion payload. -/
def applyCompletionPayload (t : TaskState) (p : CompletionPayload) :
    TaskState :=
  { t with
    task_status := p.task_status
    completed_by := some p.completed_by
    completed_at := some p.completed_at
    updated_by := p.updated_by }

/-- Task states reachable through the engine's own payloads: creation,
update, and completion. -/
inductive ReachableTask : TaskState → Prop where
  | created (taskInput : CreateTaskInput) (userId : String) :
      ReachableTask (applyCreatePayload (GetCreateTaskPayload taskInput userId))
  | updated (t : TaskState) (taskInput : UpdateTaskInput) (userId : String) :
      ReachableTask t →
      ReachableTask (applyUpdatePayload t (GetUpdateTaskPayload taskInput userId))
  | finished (t : TaskState) (userId : String) (now : ℕ) :
      ReachableTask t →
      ReachableTask (applyCompletionPayload t (GetTaskCompletionPayload userId now))

/-- Task states reachable when no update supplies a `task_status` value. -/
inductive ReachableTaskNoStatusUpdate : TaskState → Prop where
  | created (taskInput : CreateTaskInput) (userId : String) :
      ReachableTaskNoStatusUpdate
        (applyCreatePayload (GetCreateTaskPayload taskInput userId))
  | updated (t : TaskState) (taskInput : UpdateTaskInput) (userId : String) :
      taskInput.task_status = none →
      ReachableTaskNoStatusUpdate t →
      ReachableTaskNoStatusUpdate
        (applyUpdatePayload t (GetUpdateTaskPayload taskInput userId))
  | finished (t : TaskState) (userId : String) (now : ℕ) :
      ReachableTaskNoStatusUpdate t →
      ReachableTaskNoStatusUpdate
        (applyCompletionPayload t (GetTaskCompletionPayload userId now))

/-- The invariant of §3 of the spec: the completion pair is set exactly on
COMPLETED tasks. -/
def completionConsistent (t : TaskState) : Prop :=
  (t.completed_by.isSome = true ∧ t.completed_at.isSome = true) ↔
    t.task_status = "COMPLETED"

/-- A stored task document, as `GetDeleteTaskPayload` queries it. -/
structure TaskDoc where
  id : String
  test : String
  task_status : String
  deriving DecidableEq, Repr

/-- Modelled from the spec: `CommonHelper.BuildDeletePayload` lives in
`src/shared/helper`, which is not among the given sources.  Per the spec a
delete is a soft delete: the status key is set to DELETED and the deletion is
stamped with the acting user and timestamp. -/
structure SoftDeletePayload where
  ids : List String
  statusKey : String
  statusValue : String
  deleted_by : String
  deleted_at : ℕ
  deriving DecidableEq, Repr

/-- Modelled from the spec: the soft-delete update builder invoked by
`GetDeleteTaskPayload` with `statusKey = task_status`. -/
def BuildDeletePayload (ids : List String) (statusKey : String)
    (timestamp : ℕ) (userId : String) : SoftDeletePayload :=
  { ids := ids
    statusKey := statusKey
    statusValue := "DELETED"
    deleted_by := userId
    deleted_at := timestamp }

/-- The `$pull` payload built by `BuildPullTaskFromTestPayload`. -/
structure PullTaskPayload where
  filterId : String
  pulledTaskId : String
  deriving DecidableEq, Repr

/-- `BuildPullTaskFromTestPayload` of `src/modules/task/task.helper.js`
(lines 128-133): filter on the test id, `$pull` the task id from `tasks`. -/
def BuildPullTaskFromTestPayload (testId : String) (taskId : String) :
    PullTaskPayload :=
  { filterId := testId, pulledTaskId := taskId }

/-- MongoDB `$pull` semantics on the test's `tasks` array: every element
equal to the pulled id is removed. -/
def applyPullTask (taskIds : List String) (p : PullTaskPayload) :
    List String :=
  taskIds.filter (fun i => i ≠ p.pulledTaskId)

/-- The pair of payloads `GetDeleteTaskPayload` returns. -/
structure DeleteTaskPayload where
  task : SoftDeletePayload
  test : PullTaskPayload
  deriving DecidableEq, Repr

/-- The typed failure of `GetDeleteTaskPayload` (the resolver wraps it in a
`GET_DELETE_TASK_PAYLOAD_FAILED` ApolloError; no payload is produced). -/
inductive DeleteTaskError where
  | taskNotFound
  deriving DecidableEq, Repr

/-- `GetDeleteTaskPayload` of `src/modules/task/task.helper.js` (lines
90-120): find the task by id among the non-DELETED ones; absent (which
includes an already-DELETED task) is a typed failure, otherwise build the
soft-delete payload for the task and the `$pull` payload for its test. -/
def GetDeleteTaskPayload (tasks : List TaskDoc) (taskId : String)
    (userId : String) (now : ℕ) : Except DeleteTaskError DeleteTaskPayload :=
  match tasks.find? (fun t => t.id == taskId && !(t.task_status == "DELETED")) with
  | none => .error .taskNotFound
  | some task =>
    .ok { task := BuildDeletePayload [taskId] "task_status" now userId
          test := BuildPullTaskFromTestPayload task.test taskId }

/-- Modelled from the spec: a validated condition as the Criteria Evaluator
(§4.2) receives it — the evaluator's code is not among the given sources. -/
structure EvalCondition where
  criteria_type : String
  comparison_operator : String
  mark : ℚ
  notation_text : Option String
  deriving DecidableEq, Repr

/-- Modelled from the spec: a validated criteria group (AND of conditions). -/
structure EvalGroup where
  conditions : List EvalCondition
  deriving DecidableEq, Repr

/-- Modelled from the spec: a validated criteria branch (OR of groups). -/
structure EvalBranch where
  test_criteria_groups : List EvalGroup
  deriving DecidableEq, Repr

/-- Modelled from the spec: a validated `TestPassingCriteria` as the Mark
Aggregator (§4.3) consumes it. -/
structure EvalCriteria where
  pass_criteria : Option EvalBranch
  fail_criteria : Option EvalBranch
  deriving DecidableEq, Repr

/-- Modelled from the spec: comparison semantics GTE=≥, LTE=≤, GT=>, LT=<,
E== (§4.2). -/
def compareWith (op : String) (observed target : ℚ) : Bool :=
  if op = "GTE" then decide (target ≤ observed)
  else if op = "LTE" then decide (observed ≤ target)
  else if op = "GT" then decide (target < observed)
  else if op = "LT" then decide (observed < target)
  else if op = "E" then decide (observed = target)
  else false

/-- Modelled from the spec: the entered mark for a notation text, if any. -/
def lookupMark (marks : List Mark) (t : Option String) : Option ℚ :=
  match t with
  | none => none
  | some s => (marks.find? (fun m => m.notation_text == s)).map Mark.mark

/-- Modelled from the spec: a condition is satisfied iff the comparison holds
of the observed value (the entered mark for MARK conditions — absent mark is
not-satisfied, never an error — or the average for AVERAGE conditions). -/
def conditionSatisfied (marks : List Mark) (average : ℚ)
    (c : EvalCondition) : Bool :=
  if c.criteria_type = "MARK" then
    match lookupMark marks c.notation_text with
    | none => false
    | some observed => compareWith c.comparison_operator observed c.mark
  else compareWith c.comparison_operator average c.mark

/-- Modelled from the spec: a group is satisfied iff all its conditions are. -/
def groupSatisfied (marks : List Mark) (average : ℚ) (g : EvalGroup) : Bool :=
  g.conditions.all (conditionSatisfied marks average)

/-- Modelled from the spec: a branch is satisfied iff at least one of its
groups is. -/
def branchSatisfied (marks : List Mark) (average : ℚ) (b : EvalBranch) :
    Bool :=
  b.test_criteria_groups.any (groupSatisfied marks average)

/-- The three outcomes of the Mark Aggregator's classification (§4.3). -/
inductive Outcome where
  | pass
  | fail
  | indeterminate
  deriving DecidableEq, Repr

/-- Modelled from the spec: the Mark Aggregator's classification (§4.3) —
`fail_criteria` is checked first, then `pass_criteria`, else
INDETERMINATE. -/
def ClassifyOutcome (criteria : EvalCriteria) (marks : List Mark)
    (average : ℚ) : Outcome :=
  if (criteria.fail_criteria.map (branchSatisfied marks average)).getD false
    then .fail
  else if (criteria.pass_criteria.map (branchSatisfied marks average)).getD
      false then .pass
  else .indeterminate

/-- The common (non-notation) checks on a condition: `criteria_type` and
`comparison_operator` are strings whose uppercasing is in the enum set, and
`mark` is a non-negative number. -/
def condEnumsMarkOk (c : Condition) : Bool :=
  (match c.criteria_type with
   | some s => validCriteriaType.contains (asciiUpper s)
   | none => false) &&
  (match c.comparison_operator with
   | some s => validComparisonOperator.contains (asciiUpper s)
   | none => false) &&
  (match c.mark with
   | some m => decide (0 ≤ m)
   | none => false)

/-- Whether a condition's `criteria_type` uppercases to MARK. -/
def isMarkCond (c : Condition) : Bool :=
  match c.criteria_type with
  | some s => asciiUpper s == "MARK"
  | none => false

/-- The notation-scoped check on a condition exactly as the validator makes
it: for MARK conditions, a trim-non-empty `notation_text` contained in the
notation-text set. -/
def condNotationOk (c : Condition) (texts : List String) : Bool :=
  match c.criteria_type with
  | some s =>
    if asciiUpper s = "MARK" then
      match c.notation_text with
      | some nt => (strTrim nt != "") && texts.contains nt
      | none => false
    else true
  | none => true

/-- Everything `validateSingleNotationCondition` accepts. -/
def condOkFull (c : Condition) (texts : List String) : Bool :=
  condEnumsMarkOk c && condNotationOk c texts

/-- The claim-level well-formedness of a condition: enums valid, mark a
non-negative number, and a MARK condition's `notation_text` a member of the
notation-text set (with no trim clause). -/
def conditionWellFormed (c : Condition) (texts : List String) : Bool :=
  condEnumsMarkOk c &&
  (match c.criteria_type with
   | some s =>
     if asciiUpper s = "MARK" then
       match c.notation_text with
       | some nt => texts.contains nt
       | none => false
     else true
   | none => true)

theorem single_ok_iff (c : Condition) (texts : List String) (path : String) :
    validateSingleNotationCondition c texts path = .ok () ↔
      condOkFull c texts = true := by
  rcases c with ⟨ct, op, m, nt⟩
  cases ct <;> cases op <;> cases m <;> cases nt <;>
    simp [validateSingleNotationCondition, condOkFull, condEnumsMarkOk,
      condNotationOk] <;>
    split_ifs <;>
    simp_all [not_lt, le_of_lt]

/-- Everything the per-group `forEach` over groups accepts of one group. -/
def groupOkFull (g : CriteriaGroup) (texts : List String) : Bool :=
  match g.conditions with
  | some cs => !cs.isEmpty && cs.all (fun c => condOkFull c texts)
  | none => false

/-- Everything `validateTestCriteriaGroups` accepts of a groups array. -/
def branchOkFull (criteriaGroups : Option (List CriteriaGroup))
    (texts : List String) : Bool :=
  match criteriaGroups with
  | some gs => !gs.isEmpty && gs.all (fun g => groupOkFull g texts)
  | none => false

/-- Everything `validateTestPassingCriteriaInput` accepts. -/
def criteriaOkFull (tpc : TestPassingCriteria) (texts : List String) : Bool :=
  (tpc.pass_criteria.isSome || tpc.fail_criteria.isSome) &&
  (match tpc.pass_criteria with
   | some pc => branchOkFull pc.test_criteria_groups texts
   | none => true) &&
  (match tpc.fail_criteria with
   | some fc => branchOkFull fc.test_criteria_groups texts
   | none => true)

theorem conditionsAux_ok_iff (texts : List String) (gp : String) :
    ∀ (cs : List Condition) (i : Nat),
      validateConditionsAux texts gp i cs = .ok () ↔
        cs.all (fun c => condOkFull c texts) = true := by
  intro cs
  induction cs with
  | nil => intro i; simp [validateConditionsAux]
  | cons c rest ih =>
    intro i
    simp only [validateConditionsAux]
    rcases hres : validateSingleNotationCondition c texts
        (gp ++ ".conditions[" ++ toString i ++ "]") with e | u
    · have hc : condOkFull c texts = false := by
        rcases hc : condOkFull c texts with _ | _
        · rfl
        · exact absurd ((single_ok_iff c texts
            (gp ++ ".conditions[" ++ toString i ++ "]")).mpr hc)
            (by simp [hres])
      simp [hc]
    · cases u
      have hc := (single_ok_iff c texts
        (gp ++ ".conditions[" ++ toString i ++ "]")).mp hres
      simp [hc, ih (i + 1)]

theorem groupsAux_ok_iff (texts : List String) (p : String) :
    ∀ (gs : List CriteriaGroup) (i : Nat),
      validateGroupsAux texts p i gs = .ok () ↔
        gs.all (fun g => groupOkFull g texts) = true := by
  intro gs
  induction gs with
  | nil => intro i; simp [validateGroupsAux]
  | cons g rest ih =>
    intro i
    simp only [validateGroupsAux]
    rcases hconds : g.conditions with _ | cs
    · simp [groupOkFull, hconds]
    · rcases hempty : cs.isEmpty with _ | _
      · rcases hrun : validateConditionsAux texts
            (p ++ "[" ++ toString i ++ "]") 0 cs with e | u
        · have hg : groupOkFull g texts = false := by
            rcases hg : groupOkFull g texts with _ | _
            · rfl
            · exfalso
              have hall : cs.all (fun c => condOkFull c texts) = true := by
                simpa [groupOkFull, hconds, hempty] using hg
              have := (conditionsAux_ok_iff texts
                (p ++ "[" ++ toString i ++ "]") cs 0).mpr hall
              simp [this] at hrun
          have hne : cs ≠ [] := by simpa using hempty
          simp [hg, hne, hrun]
        · cases u
          have hcs := (conditionsAux_ok_iff texts
            (p ++ "[" ++ toString i ++ "]") cs 0).mp hrun
          simp [hrun, groupOkFull, hconds, hempty, hcs, ih (i + 1)]
      · simp [groupOkFull, hconds, hempty]

theorem criteriaGroups_ok_iff (criteriaGroups : Option (List CriteriaGroup))
    (texts : List String) (p : String) :
    validateTestCriteriaGroups criteriaGroups texts p = .ok () ↔
      branchOkFull criteriaGroups texts = true := by
  rcases criteriaGroups with _ | gs
  · simp [validateTestCriteriaGroups, branchOkFull]
  · rcases hempty : gs.isEmpty with _ | _
    · simp only [validateTestCriteriaGroups, hempty, Bool.false_eq_true,
        if_false]
      rw [groupsAux_ok_iff texts p gs 0]
      simp [branchOkFull, hempty]
    · simp [validateTestCriteriaGroups, branchOkFull, hempty]

theorem criteria_ok_iff (tpc : TestPassingCriteria) (ns : List NotationInput) :
    validateTestPassingCriteriaInput tpc ns = .ok () ↔
      criteriaOkFull tpc (notationTexts ns) = true := by
  rcases tpc with ⟨pc, fc⟩
  rcases pc with _ | pb <;> rcases fc with _ | fb
  · simp [validateTestPassingCriteriaInput, criteriaOkFull]
  · simp [validateTestPassingCriteriaInput, criteriaOkFull,
      criteriaGroups_ok_iff]
  · simp only [validateTestPassingCriteriaInput, criteriaOkFull]
    rcases hrun : validateTestCriteriaGroups pb.test_criteria_groups
        (notationTexts ns)
        "test_passing_criteria.pass_criteria.test_criteria_groups" with e | u
    · have hpb : branchOkFull pb.test_criteria_groups (notationTexts ns) =
          false := by
        rcases hg : branchOkFull pb.test_criteria_groups (notationTexts ns)
            with _ | _
        · rfl
        · exact absurd ((criteriaGroups_ok_iff pb.test_criteria_groups
            (notationTexts ns)
            "test_passing_criteria.pass_criteria.test_criteria_groups").mpr hg)
            (by simp [hrun])
      simp [hrun, hpb]
    · cases u
      have hpb := (criteriaGroups_ok_iff pb.test_criteria_groups
        (notationTexts ns)
        "test_passing_criteria.pass_criteria.test_criteria_groups").mp hrun
      simp [hrun, hpb]
  · simp only [validateTestPassingCriteriaInput, criteriaOkFull]
    rcases hrun : validateTestCriteriaGroups pb.test_criteria_groups
        (notationTexts ns)
        "test_passing_criteria.pass_criteria.test_criteria_groups" with e | u
    · have hpb : branchOkFull pb.test_criteria_groups (notationTexts ns) =
          false := by
        rcases hg : branchOkFull pb.test_criteria_groups (notationTexts ns)
            with _ | _
        · rfl
        · exact absurd ((criteriaGroups_ok_iff pb.test_criteria_groups
            (notationTexts ns)
            "test_passing_criteria.pass_criteria.test_criteria_groups").mpr hg)
            (by simp [hrun])
      simp [hrun, hpb]
    · cases u
      have hpb := (criteriaGroups_ok_iff pb.test_criteria_groups
        (notationTexts ns)
        "test_passing_criteria.pass_criteria.test_criteria_groups").mp hrun
      simp [hrun, hpb, criteriaGroups_ok_iff]

/-- Claim-level well-formedness of one branch: every condition of every group
has valid enum fields, a non-negative mark, and (for MARK conditions) a
notation text in the set. -/
def branchWellFormed (b : Option CriteriaBranch) (texts : List String) :
    Bool :=
  match b with
  | none => true
  | some br =>
    match br.test_criteria_groups with
    | none => false
    | some gs =>
      gs.all (fun g =>
        match g.conditions with
        | none => false
        | some cs => cs.all (fun c => conditionWellFormed c texts))

/-- Claim-level well-formedness of a whole criteria tree. -/
def criteriaWellFormed (tpc : TestPassingCriteria) (texts : List String) :
    Bool :=
  branchWellFormed tpc.pass_criteria texts &&
    branchWellFormed tpc.fail_criteria texts

/-- The structural invariant on one branch: a present branch carries a
non-empty groups array whose groups carry non-empty condition arrays. -/
def branchStructOk : Option CriteriaBranch → Bool
  | none => true
  | some br =>
    match br.test_criteria_groups with
    | none => false
    | some gs =>
      !gs.isEmpty &&
        gs.all (fun g =>
          match g.conditions with
          | none => false
          | some cs => !cs.isEmpty)

/-- The structural invariant of the claim: at least one branch present, and
every present branch structurally sound. -/
def structuralOk (tpc : TestPassingCriteria) : Bool :=
  (tpc.pass_criteria.isSome || tpc.fail_criteria.isSome) &&
    branchStructOk tpc.pass_criteria && branchStructOk tpc.fail_criteria

theorem condOk_eq_wellFormed (c : Condition) (texts : List String)
    (ht : texts.all (fun t => strTrim t != "") = true) :
    condOkFull c texts = conditionWellFormed c texts := by
  simp only [condOkFull, conditionWellFormed, condNotationOk]
  rcases hct : c.criteria_type with _ | s
  · rfl
  · by_cases hmk : asciiUpper s = "MARK"
    · rcases hnt : c.notation_text with _ | nt
      · simp [hmk]
      · by_cases hmem : texts.contains nt = true
        · have htrim : strTrim nt != "" := by
            simp only [List.all_eq_true] at ht
            exact ht nt (by simpa using hmem)
          simp [hmk, hmem, htrim]
        · have hnotmem : nt ∉ texts := by
            simpa using hmem
          simp [hmk, hnotmem]
    · simp [hmk]

theorem criteriaOk_iff_wellFormed (tpc : TestPassingCriteria)
    (texts : List String)
    (ht : texts.all (fun t => strTrim t != "") = true)
    (hs : structuralOk tpc = true) :
    criteriaOkFull tpc texts = true ↔ criteriaWellFormed tpc texts = true := by
  have hbranch : ∀ b : Option CriteriaBranch, branchStructOk b = true →
      ((match b with
        | some br => branchOkFull br.test_criteria_groups texts
        | none => true) = true ↔ branchWellFormed b texts = true) := by
    intro b hb
    rcases b with _ | br
    · simp [branchWellFormed]
    · rcases hgs : br.test_criteria_groups with _ | gs
      · simp [branchStructOk, hgs] at hb
      · simp only [branchStructOk, hgs, Bool.and_eq_true,
          List.all_eq_true] at hb
        simp only [branchOkFull, branchWellFormed, hgs, Bool.and_eq_true,
          List.all_eq_true, hb.1, true_and]
        constructor
        · intro h g hg
          have := h g hg
          rcases hconds : g.conditions with _ | cs
          · simp [groupOkFull, hconds] at this
          · simp only [groupOkFull, hconds, Bool.and_eq_true,
              List.all_eq_true] at this
            simp only [hconds, List.all_eq_true]
            intro c hc
            rw [← condOk_eq_wellFormed c texts ht]
            exact this.2 c hc
        · intro h g hg
          have hwf := h g hg
          have hstruct := hb.2 g hg
          rcases hconds : g.conditions with _ | cs
          · simp [hconds] at hstruct
          · simp only [hconds] at hstruct hwf
            simp only [groupOkFull, hconds, Bool.and_eq_true,
              List.all_eq_true, hstruct, true_and]
            simp only [List.all_eq_true] at hwf
            intro c hc
            rw [condOk_eq_wellFormed c texts ht]
            exact hwf c hc
  simp only [structuralOk, Bool.and_eq_true] at hs
  simp only [criteriaOkFull, criteriaWellFormed, Bool.and_eq_true,
    hs.1.1, true_and]
  rw [hbranch tpc.pass_criteria hs.1.2, hbranch tpc.fail_criteria hs.2]

theorem single_missing_text_error (c : Condition) (texts : List String)
    (path : String) (hok : condEnumsMarkOk c = true)
    (hmark : isMarkCond c = true)
    (hnone : c.notation_text = none ∨
      (∃ nt, c.notation_text = some nt ∧ strTrim nt = "")) :
    validateSingleNotationCondition c texts path =
      .error (.missingNotationText path) := by
  rcases hct : c.criteria_type with _ | s
  · simp [condEnumsMarkOk, hct] at hok
  · rcases hop : c.comparison_operator with _ | o
    · simp [condEnumsMarkOk, hct, hop] at hok
    · rcases hm : c.mark with _ | mv
      · simp [condEnumsMarkOk, hct, hop, hm] at hok
      · simp only [condEnumsMarkOk, hct, hop, hm, Bool.and_eq_true] at hok
        have hmk : asciiUpper s = "MARK" := by
          simpa [isMarkCond, hct] using hmark
        have hge : (0 : ℚ) ≤ mv := by simpa using hok.2
        have hnl : ¬ (mv < 0) := not_lt.mpr hge
        have hmem1 : "MARK" ∈ validCriteriaType := by decide
        have hmem2 : asciiUpper o ∈ validComparisonOperator := by
          simpa using hok.1.2
        rcases hnone with hnt | ⟨nt, hnt, htrim⟩
        · simp [validateSingleNotationCondition, hct, hop, hm, hnt,
            hok.1.1, hok.1.2, hmk, hnl, hmem1, hmem2]
        · simp [validateSingleNotationCondition, hct, hop, hm, hnt,
            hok.1.1, hok.1.2, hmk, hnl, htrim, hmem1, hmem2]

theorem single_unknown_text_error (c : Condition) (texts : List String)
    (path : String) (nt : String) (hok : condEnumsMarkOk c = true)
    (hmark : isMarkCond c = true) (hnt : c.notation_text = some nt)
    (htrim : strTrim nt ≠ "") (hmem : texts.contains nt = false) :
    validateSingleNotationCondition c texts path =
      .error (.unknownNotationText nt path) := by
  rcases hct : c.criteria_type with _ | s
  · simp [condEnumsMarkOk, hct] at hok
  · rcases hop : c.comparison_operator with _ | o
    · simp [condEnumsMarkOk, hct, hop] at hok
    · rcases hm : c.mark with _ | mv
      · simp [condEnumsMarkOk, hct, hop, hm] at hok
      · simp only [condEnumsMarkOk, hct, hop, hm, Bool.and_eq_true] at hok
        have hmk : asciiUpper s = "MARK" := by
          simpa [isMarkCond, hct] using hmark
        have hge : (0 : ℚ) ≤ mv := by simpa using hok.2
        have hnl : ¬ (mv < 0) := not_lt.mpr hge
        have hnotmem : nt ∉ texts := by simpa using hmem
        have hmem1 : "MARK" ∈ validCriteriaType := by decide
        have hmem2 : asciiUpper o ∈ validComparisonOperator := by
          simpa using hok.1.2
        simp [validateSingleNotationCondition, hct, hop, hm, hnt,
          hok.1.1, hok.1.2, hmk, hnl, htrim, hnotmem, hmem1, hmem2]

/-- C1 (amended): for structurally sound criteria trees (at least one branch,
non-empty groups and condition arrays, notation texts non-blank),
`validateTestPassingCriteriaInput` succeeds iff every condition's
`criteria_type` and `comparison_operator` uppercase into the valid enum sets,
every condition's `mark` is a non-negative number, and every MARK condition's
`notation_text` is a member of the notation-text set; a MARK condition with a
missing/blank `notation_text` is rejected with a different error than one
naming an unknown notation. -/
theorem criteria_validation_characterization (tpc : TestPassingCriteria)
    (ns : List NotationInput) (hs : structuralOk tpc = true)
    (ht : (notationTexts ns).all (fun t => strTrim t != "") = true) :
    (validateTestPassingCriteriaInput tpc ns = .ok () ↔
       criteriaWellFormed tpc (notationTexts ns) = true) ∧
    (∀ (c : Condition) (texts : List String) (path : String),
       condEnumsMarkOk c = true → isMarkCond c = true →
       c.notation_text = none →
       validateSingleNotationCondition c texts path =
         .error (.missingNotationText path)) ∧
    (∀ (c : Condition) (texts : List String) (path : String) (nt : String),
       condEnumsMarkOk c = true → isMarkCond c = true →
       c.notation_text = some nt → strTrim nt = "" →
       validateSingleNotationCondition c texts path =
         .error (.missingNotationText path)) ∧
    (∀ (c : Condition) (texts : List String) (path : String) (nt : String),
       condEnumsMarkOk c = true → isMarkCond c = true →
       c.notation_text = some nt → strTrim nt ≠ "" →
       texts.contains nt = false →
       validateSingleNotationCondition c texts path =
         .error (.unknownNotationText nt path)) ∧
    (∀ (p₁ p₂ nt : String),
       VError.missingNotationText p₁ ≠ VError.unknownNotationText nt p₂) := by
  refine ⟨?_, ?_, ?_, ?_, ?_⟩
  · rw [criteria_ok_iff]
    exact criteriaOk_iff_wellFormed tpc (notationTexts ns) ht hs
  · intro c texts path hok hmark hnone
    exact single_missing_text_error c texts path hok hmark (Or.inl hnone)
  · intro c texts path nt hok hmark hnt htrim
    exact single_missing_text_error c texts path hok hmark
      (Or.inr ⟨nt, hnt, htrim⟩)
  · intro c texts path nt hok hmark hnt htrim hmem
    exact single_unknown_text_error c texts path nt hok hmark hnt htrim hmem
  · intro p₁ p₂ nt
    simp

/-- A concrete well-formed criteria tree: one pass group with the single
condition MARK GTE 10 on notation A. -/
def sampleGoodCriteria : TestPassingCriteria :=
  ⟨some ⟨some [⟨some [⟨some "MARK", some "GTE", some 10, some "A"⟩]⟩]⟩, none⟩

/-- A concrete notation list with the single notation A (max 20). -/
def sampleNotationList : List NotationInput :=
  [⟨some "A", some 20⟩]

/-- The same tree as `sampleGoodCriteria` but with mark −1. -/
def sampleNegativeMarkCriteria : TestPassingCriteria :=
  ⟨some ⟨some [⟨some [⟨some "MARK", some "GTE", some (-1), some "A"⟩]⟩]⟩, none⟩

/-- Witness for C1: a concrete well-formed tree is accepted, via the
characterization applied at that input. -/
theorem criteria_validation_characterization_witness :
    validateTestPassingCriteriaInput sampleGoodCriteria sampleNotationList =
      .ok () :=
  ((criteria_validation_characterization sampleGoodCriteria
      sampleNotationList (by decide) (by decide)).1).mpr (by decide)

/-- Counterexample for C1 as frozen: a tree whose only condition has valid
enum fields and a notation text that is a member of the notation set is
nevertheless rejected, because its mark is negative — so validation success
is not equivalent to notation-membership plus enum-validity alone. -/
theorem criteria_validation_negative_mark_counterexample :
    validateTestPassingCriteriaInput sampleNegativeMarkCriteria
      sampleNotationList =
      .error (.badMark
        "test_passing_criteria.pass_criteria.test_criteria_groups[0].conditions[0]") ∧
    (notationTexts sampleNotationList).contains "A" = true ∧
    validCriteriaType.contains (asciiUpper "MARK") = true ∧
    validComparisonOperator.contains (asciiUpper "GTE") = true := by
  decide

/-- C6: every condition submitted to criteria validation is rejected with a
field-qualified error unless its `criteria_type` is (after uppercasing) in
MARK, AVERAGE, its `comparison_operator` is in GTE, LTE, GT, LT, E, and its
`mark` is a non-negative number; in particular every condition whose mark is
absent or negative is rejected. -/
theorem condition_rejected_unless_common_checks :
    (∀ (c : Condition) (texts : List String) (path : String),
       condEnumsMarkOk c = false →
       ∃ e, validateSingleNotationCondition c texts path = .error e ∧
         (e = .badCriteriaType path ∨ e = .badComparisonOperator path ∨
           e = .badMark path)) ∧
    (∀ (c : Condition) (texts : List String) (path : String),
       (match c.mark with
        | some m => decide (m < 0)
        | none => true) = true →
       ∃ e, validateSingleNotationCondition c texts path = .error e) := by
  have part1 : ∀ (c : Condition) (texts : List String) (path : String),
      condEnumsMarkOk c = false →
      ∃ e, validateSingleNotationCondition c texts path = .error e ∧
        (e = .badCriteriaType path ∨ e = .badComparisonOperator path ∨
          e = .badMark path) := by
    intro c texts path h
    rcases hct : c.criteria_type with _ | s
    · exact ⟨.badCriteriaType path,
        by simp [validateSingleNotationCondition, hct], Or.inl rfl⟩
    · rcases hcv : validCriteriaType.contains (asciiUpper s) with _ | _
      · have hniv : asciiUpper s ∉ validCriteriaType := by simpa using hcv
        exact ⟨.badCriteriaType path,
          by simp [validateSingleNotationCondition, hct, hcv, hniv],
          Or.inl rfl⟩
      · have hiv : asciiUpper s ∈ validCriteriaType := by simpa using hcv
        rcases hop : c.comparison_operator with _ | o
        · refine ⟨.badComparisonOperator path, ?_, Or.inr (Or.inl rfl)⟩
          simp [validateSingleNotationCondition, hct, hcv, hiv, hop]
        · rcases hov : validComparisonOperator.contains (asciiUpper o)
              with _ | _
          · have hnio : asciiUpper o ∉ validComparisonOperator := by
              simpa using hov
            refine ⟨.badComparisonOperator path, ?_, Or.inr (Or.inl rfl)⟩
            simp [validateSingleNotationCondition, hct, hcv, hiv, hop, hov,
              hnio]
          · have hio : asciiUpper o ∈ validComparisonOperator := by
              simpa using hov
            rcases hm : c.mark with _ | mv
            · refine ⟨.badMark path, ?_, Or.inr (Or.inr rfl)⟩
              simp [validateSingleNotationCondition, hct, hcv, hiv, hop,
                hov, hio, hm]
            · have hneg : mv < 0 := by
                have hh := h
                simp [condEnumsMarkOk, hct, hop, hm, hcv, hov, not_le] at hh
                exact hh hiv hio
              refine ⟨.badMark path, ?_, Or.inr (Or.inr rfl)⟩
              simp [validateSingleNotationCondition, hct, hcv, hiv, hop,
                hov, hio, hm, hneg]
  refine ⟨part1, ?_⟩
  intro c texts path hm
  have h : condEnumsMarkOk c = false := by
    rcases hmk : c.mark with _ | mv
    · simp [condEnumsMarkOk, hmk]
    · rw [hmk] at hm
      have hlt : mv < 0 := of_decide_eq_true hm
      simp [condEnumsMarkOk, hmk, not_le.mpr hlt]
  obtain ⟨e, he, -⟩ := part1 c texts path h
  exact ⟨e, he⟩

/-- Witness for C6: a concrete condition with a negative mark is rejected,
via the theorem applied at that input. -/
theorem condition_rejected_unless_common_checks_witness :
    ∃ e, validateSingleNotationCondition
      ⟨some "MARK", some "GTE", some (-3), some "A"⟩ ["A"] "p" = .error e :=
  condition_rejected_unless_common_checks.2
    ⟨some "MARK", some "GTE", some (-3), some "A"⟩ ["A"] "p" (by decide)

/-- C10: the enum fields `criteria_type` and `comparison_operator` are
compared case-insensitively — replacing either by any string with the same
uppercasing leaves the validation result unchanged — while a MARK condition's
`notation_text` is matched against the notation set exactly: a lower-case or
whitespace-padded variant of a set member is rejected as unknown. -/
theorem enum_fields_caseFold_notation_text_exact :
    (∀ (c : Condition) (texts : List String) (path : String)
       (s₁ s₂ : String), asciiUpper s₁ = asciiUpper s₂ →
       validateSingleNotationCondition { c with criteria_type := some s₁ }
           texts path =
         validateSingleNotationCondition { c with criteria_type := some s₂ }
           texts path) ∧
    (∀ (c : Condition) (texts : List String) (path : String)
       (s₁ s₂ : String), asciiUpper s₁ = asciiUpper s₂ →
       validateSingleNotationCondition
           { c with comparison_operator := some s₁ } texts path =
         validateSingleNotationCondition
           { c with comparison_operator := some s₂ } texts path) ∧
    validateSingleNotationCondition
      ⟨some "MARK", some "GTE", some 1, some "a"⟩ ["A"] "p" =
      .error (.unknownNotationText "a" "p") ∧
    validateSingleNotationCondition
      ⟨some "MARK", some "GTE", some 1, some " A"⟩ ["A"] "p" =
      .error (.unknownNotationText " A" "p") := by
  refine ⟨?_, ?_, by decide, by decide⟩
  · intro c texts path s₁ s₂ h
    simp only [validateSingleNotationCondition, h]
  · intro c texts path s₁ s₂ h
    simp only [validateSingleNotationCondition, h]

/-- Witness for C10: `criteria_type` values `mark` and `MaRk` validate
identically, via the theorem applied at that input. -/
theorem enum_fields_caseFold_notation_text_exact_witness :
    validateSingleNotationCondition
      ⟨some "mark", some "GTE", some 1, some "A"⟩ ["A"] "p" =
      validateSingleNotationCondition
        ⟨some "MaRk", some "GTE", some 1, some "A"⟩ ["A"] "p" :=
  enum_fields_caseFold_notation_text_exact.1
    ⟨some "x", some "GTE", some 1, some "A"⟩ ["A"] "p" "mark" "MaRk"
    (by decide)

theorem totalMarks_eq_sum (marks : List Mark) :
    totalMarks marks = (marks.map Mark.mark).sum := by
  have gen : ∀ (l : List Mark) (a : ℚ),
      l.foldl (fun acc m => acc + m.mark) a = a + (l.map Mark.mark).sum := by
    intro l
    induction l with
    | nil => intro a; simp
    | cons x xs ih => intro a; simp [ih, add_assoc]
  simpa using gen marks 0

/-- C2: the computed `average_mark` is the arithmetic mean of the entered
marks rounded to 2 decimal places, is 0 on an empty mark list, and on the
marks [(A,12), (B,8)] it is 10. -/
theorem average_mark_is_rounded_mean :
    (∀ (enterMarksInput : EnterMarksInput) (userId : String) (now : ℕ),
       enterMarksInput.marks ≠ [] →
       (GetStudentTestResultPayload enterMarksInput userId now).average_mark =
         round2 ((enterMarksInput.marks.map Mark.mark).sum /
           (enterMarksInput.marks.length : ℚ))) ∧
    (∀ (enterMarksInput : EnterMarksInput) (userId : String) (now : ℕ),
       enterMarksInput.marks = [] →
       (GetStudentTestResultPayload enterMarksInput userId now).average_mark =
         0) ∧
    (GetStudentTestResultPayload ⟨"t", "s", [⟨"A", 12⟩, ⟨"B", 8⟩]⟩ "u"
        0).average_mark = 10 := by
  refine ⟨?_, ?_, ?_⟩
  · intro inp userId now hne
    have hlen : inp.marks.length ≠ 0 := by simpa using hne
    simp [GetStudentTestResultPayload, hlen, totalMarks_eq_sum]
  · intro inp userId now hempty
    simp only [GetStudentTestResultPayload, hempty]
    norm_num [round2]
  · simp only [GetStudentTestResultPayload, totalMarks]
    norm_num [round2]

/-- Witness for C2: the general mean formula applied at the concrete marks
[(A,12), (B,8)]. -/
theorem average_mark_is_rounded_mean_witness :
    (GetStudentTestResultPayload ⟨"t", "s", [⟨"A", 12⟩, ⟨"B", 8⟩]⟩ "u"
        0).average_mark =
      round2 ((([⟨"A", 12⟩, ⟨"B", 8⟩] : List Mark).map Mark.mark).sum /
        (([⟨"A", 12⟩, ⟨"B", 8⟩] : List Mark).length : ℚ)) :=
  average_mark_is_rounded_mean.1 ⟨"t", "s", [⟨"A", 12⟩, ⟨"B", 8⟩]⟩ "u" 0
    (by decide)

/-- C3: whenever both branches are present and both are satisfied by the
marks and average, the classified outcome is FAIL — the fail branch is
evaluated first and overrides the satisfied pass branch. -/
theorem fail_criteria_precedence (criteria : EvalCriteria)
    (marks : List Mark) (average : ℚ) (fb pb : EvalBranch)
    (hf : criteria.fail_criteria = some fb)
    (hp : criteria.pass_criteria = some pb)
    (hfs : branchSatisfied marks average fb = true)
    (hps : branchSatisfied marks average pb = true) :
    ClassifyOutcome criteria marks average = .fail := by
  simp [ClassifyOutcome, hf, hfs]

/-- Witness for C3: pass branch AVERAGE GTE 10 and fail branch MARK A LT 5
are both satisfied by marks A=3, B=17 with average 10; the outcome is FAIL. -/
theorem fail_criteria_precedence_witness :
    ClassifyOutcome
      ⟨some ⟨[⟨[⟨"AVERAGE", "GTE", 10, none⟩]⟩]⟩,
       some ⟨[⟨[⟨"MARK", "LT", 5, some "A"⟩]⟩]⟩⟩
      [⟨"A", 3⟩, ⟨"B", 17⟩] 10 = .fail :=
  fail_criteria_precedence
    ⟨some ⟨[⟨[⟨"AVERAGE", "GTE", 10, none⟩]⟩]⟩,
     some ⟨[⟨[⟨"MARK", "LT", 5, some "A"⟩]⟩]⟩⟩
    [⟨"A", 3⟩, ⟨"B", 17⟩] 10
    ⟨[⟨[⟨"MARK", "LT", 5, some "A"⟩]⟩]⟩
    ⟨[⟨[⟨"AVERAGE", "GTE", 10, none⟩]⟩]⟩
    rfl rfl (by decide) (by decide)

/-- C4: the ValidateMarks payloads do set the result's status to VALIDATED
and complete the task, but the validation date is written under the key
`marks_validated_date`, which is not a field of the `StudentTestResult`
GraphQL type — the declared `mark_validated_date` field is never set by the
payload, contradicting the code's own typedef. -/
theorem validate_marks_payload_field_mismatch :
    ("student_test_result_status", FieldValue.str "VALIDATED") ∈
      GetStudentTestResultValidationPayload "u" 0 ∧
    ((GetStudentTestResultValidationPayload "u" 0).map Prod.fst).contains
      "marks_validated_date" = true ∧
    ((GetStudentTestResultValidationPayload "u" 0).map Prod.fst).contains
      "mark_validated_date" = false ∧
    studentTestResultTypedefFields.contains "mark_validated_date" = true ∧
    studentTestResultTypedefFields.contains "marks_validated_date" = false ∧
    (GetTaskCompletionPayload "u" 0).task_status = "COMPLETED" := by
  decide

/-- C5 (amended): the completion pair is set iff the task is COMPLETED, for
every state reachable through CreateTask, task completion, and UpdateTask
payloads that do not supply a `task_status` value; an UpdateTask that does
supply one can break the invariant. -/
theorem completion_consistent_without_status_updates (t : TaskState)
    (h : ReachableTaskNoStatusUpdate t) : completionConsistent t := by
  induction h with
  | created taskInput userId =>
    simp [completionConsistent, applyCreatePayload, GetCreateTaskPayload]
  | updated t taskInput userId hnone hreach ih =>
    simpa [completionConsistent, applyUpdatePayload, GetUpdateTaskPayload,
      hnone] using ih
  | finished t userId now hreach ih =>
    simp [completionConsistent, applyCompletionPayload,
      GetTaskCompletionPayload]

/-- A concrete create input used by the task-state theorems. -/
def sampleCreateTaskInput : CreateTaskInput :=
  ⟨"test1", "user1", "title", "desc", "ENTER_MARKS", none⟩

/-- Witness for C5: a freshly created task satisfies the invariant, via the
theorem applied to the creation step. -/
theorem completion_consistent_without_status_updates_witness :
    completionConsistent
      (applyCreatePayload (GetCreateTaskPayload sampleCreateTaskInput "u")) :=
  completion_consistent_without_status_updates
    (applyCreatePayload (GetCreateTaskPayload sampleCreateTaskInput "u"))
    (ReachableTaskNoStatusUpdate.created sampleCreateTaskInput "u")

/-- An update input that supplies only `task_status = COMPLETED`. -/
def statusOnlyUpdateInput : UpdateTaskInput :=
  ⟨none, none, none, none, some "COMPLETED", none⟩

/-- Counterexample for C5 as frozen: updating a fresh PENDING task with an
UpdateTask payload that supplies `task_status = COMPLETED` reaches a state
whose status is COMPLETED while `completed_by`/`completed_at` are unset. -/
theorem completion_consistency_counterexample :
    ReachableTask
      (applyUpdatePayload
        (applyCreatePayload (GetCreateTaskPayload sampleCreateTaskInput "c"))
        (GetUpdateTaskPayload statusOnlyUpdateInput "u")) ∧
    ¬ completionConsistent
      (applyUpdatePayload
        (applyCreatePayload (GetCreateTaskPayload sampleCreateTaskInput "c"))
        (GetUpdateTaskPayload statusOnlyUpdateInput "u")) := by
  constructor
  · exact ReachableTask.updated _ statusOnlyUpdateInput "u"
      (ReachableTask.created sampleCreateTaskInput "c")
  · simp only [completionConsistent]
    decide

/-- C7: deleting a task found among the non-DELETED tasks produces exactly
the soft-delete payload for that task id plus the `$pull` of the id from its
test's task list (and nothing else); applying the pull removes the id and
keeps every other id; on a task that is absent or already DELETED the helper
returns a typed error and no payload. -/
theorem delete_task_payload_characterization :
    (∀ (tasks : List TaskDoc) (taskId userId : String) (now : ℕ)
       (td : TaskDoc),
       tasks.find? (fun t => t.id == taskId && !(t.task_status == "DELETED"))
         = some td →
       GetDeleteTaskPayload tasks taskId userId now =
         .ok { task := { ids := [taskId], statusKey := "task_status",
                         statusValue := "DELETED", deleted_by := userId,
                         deleted_at := now },
               test := { filterId := td.test, pulledTaskId := taskId } }) ∧
    (∀ (tasks : List TaskDoc) (taskId userId : String) (now : ℕ),
       (∀ td ∈ tasks, td.id = taskId → td.task_status = "DELETED") →
       GetDeleteTaskPayload tasks taskId userId now = .error .taskNotFound) ∧
    (∀ (ids : List String) (p : PullTaskPayload),
       p.pulledTaskId ∉ applyPullTask ids p ∧
       ∀ x, x ≠ p.pulledTaskId → (x ∈ applyPullTask ids p ↔ x ∈ ids)) := by
  refine ⟨?_, ?_, ?_⟩
  · intro tasks taskId userId now td hfind
    simp [GetDeleteTaskPayload, hfind, BuildDeletePayload,
      BuildPullTaskFromTestPayload]
  · intro tasks taskId userId now h
    have hfind : tasks.find?
        (fun t => t.id == taskId && !(t.task_status == "DELETED")) = none := by
      rw [List.find?_eq_none]
      intro td htd
      simp only [Bool.and_eq_true, beq_iff_eq, Bool.not_eq_true,
        not_and]
      intro hid
      simpa using h td htd hid
    simp [GetDeleteTaskPayload, hfind]
  · intro ids p
    constructor
    · simp [applyPullTask]
    · intro x hx
      simp [applyPullTask, hx]

/-- Witness for C7: deleting the PENDING task `task1` of `test1` yields the
soft-delete plus pull payload pair, via the theorem applied at that input. -/
theorem delete_task_payload_characterization_witness :
    GetDeleteTaskPayload [⟨"task1", "test1", "PENDING"⟩] "task1" "u" 0 =
      .ok { task := { ids := ["task1"], statusKey := "task_status",
                      statusValue := "DELETED", deleted_by := "u",
                      deleted_at := 0 },
            test := { filterId := "test1", pulledTaskId := "task1" } } :=
  delete_task_payload_characterization.1 [⟨"task1", "test1", "PENDING"⟩]
    "task1" "u" 0 ⟨"task1", "test1", "PENDING"⟩ (by decide)

/-- C8: the update payload carries exactly the supplied fields plus
`updated_by`; in particular `task_status` is in the payload iff the caller
supplied it, and applying the payload leaves every unsupplied field (and the
completion pair, never present in an update payload) unchanged. -/
theorem update_payload_exactly_supplied_fields
    (taskInput : UpdateTaskInput) (userId : String) (t : TaskState) :
    ((GetUpdateTaskPayload taskInput userId).user = none ↔
      taskInput.user = none) ∧
    ((GetUpdateTaskPayload taskInput userId).title = none ↔
      taskInput.title = none) ∧
    ((GetUpdateTaskPayload taskInput userId).description = none ↔
      taskInput.description = none) ∧
    ((GetUpdateTaskPayload taskInput userId).task_type = none ↔
      taskInput.task_type = none) ∧
    ((GetUpdateTaskPayload taskInput userId).task_status = none ↔
      taskInput.task_status = none) ∧
    ((GetUpdateTaskPayload taskInput userId).due_date = none ↔
      taskInput.due_date = none) ∧
    (GetUpdateTaskPayload taskInput userId).updated_by = userId ∧
    (taskInput.user = none →
      (applyUpdatePayload t (GetUpdateTaskPayload taskInput userId)).user =
        t.user) ∧
    (taskInput.title = none →
      (applyUpdatePayload t (GetUpdateTaskPayload taskInput userId)).title =
        t.title) ∧
    (taskInput.description = none →
      (applyUpdatePayload t
        (GetUpdateTaskPayload taskInput userId)).description =
        t.description) ∧
    (taskInput.task_type = none →
      (applyUpdatePayload t
        (GetUpdateTaskPayload taskInput userId)).task_type = t.task_type) ∧
    (taskInput.task_status = none →
      (applyUpdatePayload t
        (GetUpdateTaskPayload taskInput userId)).task_status =
        t.task_status) ∧
    (taskInput.due_date = none →
      (applyUpdatePayload t
        (GetUpdateTaskPayload taskInput userId)).due_date = t.due_date) ∧
    (applyUpdatePayload t
      (GetUpdateTaskPayload taskInput userId)).completed_by =
      t.completed_by ∧
    (applyUpdatePayload t
      (GetUpdateTaskPayload taskInput userId)).completed_at =
      t.completed_at := by
  refine ⟨?_, ?_, ?_, ?_, ?_, ?_, ?_, ?_, ?_, ?_, ?_, ?_, ?_, ?_, ?_⟩ <;>
    simp [GetUpdateTaskPayload, applyUpdatePayload] <;>
    (intro h; simp [h])

/-- Witness for C8: with an input supplying only `task_status`, applying the
payload leaves `user` unchanged, via the theorem applied at that input. -/
theorem update_payload_exactly_supplied_fields_witness :
    (applyUpdatePayload
      (applyCreatePayload (GetCreateTaskPayload sampleCreateTaskInput "c"))
      (GetUpdateTaskPayload statusOnlyUpdateInput "u")).user =
      (applyCreatePayload
        (GetCreateTaskPayload sampleCreateTaskInput "c")).user :=
  (update_payload_exactly_supplied_fields statusOnlyUpdateInput "u"
    (applyCreatePayload
      (GetCreateTaskPayload sampleCreateTaskInput "c"))).2.2.2.2.2.2.2.1 rfl

/-- C9: when a test input carries a `test_passing_criteria`, the criteria is
validated against the input's own notations when they are present, otherwise
against the test's existing notations; when neither source yields a
non-empty array the input is rejected with the no-notations validation
failure; and `ValidateTestInput` runs exactly this criteria block once the
earlier blocks pass. -/
theorem criteria_validated_against_proper_notations :
    (∀ (testInput : TestInput) (existingNotations : Option (List NotationInput))
       (tpc : TestPassingCriteria) (l : List NotationInput),
       testInput.test_passing_criteria = some tpc →
       testInput.notations = some l → l ≠ [] →
       validateCriteriaSection testInput existingNotations =
         validateTestPassingCriteriaInput tpc l) ∧
    (∀ (testInput : TestInput) (tpc : TestPassingCriteria)
       (l : List NotationInput),
       testInput.test_passing_criteria = some tpc →
       testInput.notations = none → l ≠ [] →
       validateCriteriaSection testInput (some l) =
         validateTestPassingCriteriaInput tpc l) ∧
    (∀ (testInput : TestInput)
       (existingNotations : Option (List NotationInput))
       (tpc : TestPassingCriteria),
       testInput.test_passing_criteria = some tpc →
       testInput.notations = none →
       (existingNotations = none ∨ existingNotations = some []) →
       validateCriteriaSection testInput existingNotations =
         .error .noNotationsForCriteria) ∧
    (∀ (testInput : TestInput)
       (existingNotations : Option (List NotationInput))
       (tpc : TestPassingCriteria),
       testInput.test_passing_criteria = some tpc →
       testInput.notations = some [] →
       validateCriteriaSection testInput existingNotations =
         .error .noNotationsForCriteria) ∧
    (∀ (testInput : TestInput) (evaluationType : String)
       (existingNotations : Option (List NotationInput)) (isUpdate : Bool),
       validateRuleFields testInput isUpdate = .ok () →
       validateNotationsSection testInput isUpdate = .ok () →
       validateRetakeSection testInput = .ok () →
       validateTestTypeEvalSection testInput evaluationType = .ok () →
       ValidateTestInput testInput evaluationType existingNotations isUpdate =
         validateCriteriaSection testInput existingNotations) := by
  refine ⟨?_, ?_, ?_, ?_, ?_⟩
  · intro inp en tpc l hcrit hnot hne
    rcases l with _ | ⟨x, xs⟩
    · exact absurd rfl hne
    · simp [validateCriteriaSection, hcrit, hnot]
  · intro inp tpc l hcrit hnot hne
    rcases l with _ | ⟨x, xs⟩
    · exact absurd rfl hne
    · simp [validateCriteriaSection, hcrit, hnot]
  · intro inp en tpc hcrit hnot hen
    rcases hen with hen | hen <;> simp [validateCriteriaSection, hcrit,
      hnot, hen]
  · intro inp en tpc hcrit hnot
    simp [validateCriteriaSection, hcrit, hnot]
  · intro inp et en iu h1 h2 h3 h4
    simp [ValidateTestInput, h1, h2, h3, h4]

/-- A concrete partial-update test input carrying a criteria but no
notations of its own. -/
def sampleUpdateTestInput : TestInput :=
  { name := some "n", description := some "d", test_type := some "ORAL",
    result_visibility := some "NEVER", weight := some 1,
    correction_type := some "ADMTC", is_retake := some false,
    connected_test := none, test_status := none, notations := none,
    test_passing_criteria := some sampleGoodCriteria }

/-- Witness for C9: on a partial update carrying a criteria and no
notations, the full validator runs the criteria block (all earlier blocks
pass), via the theorem applied at that input. -/
theorem criteria_validated_against_proper_notations_witness :
    ValidateTestInput sampleUpdateTestInput "SCORE" (some sampleNotationList)
        true =
      validateCriteriaSection sampleUpdateTestInput
        (some sampleNotationList) :=
  criteria_validated_against_proper_notations.2.2.2.2 sampleUpdateTestInput
    "SCORE" (some sampleNotationList) true (by decide) (by decide)
    (by decide) (by decide)

end ZettaGrading
